import Mathlib

/-!
Shallow embedding of `rio_toa/sun_utils.py`: the acquisition-time parser,
day-fraction conversions, solar geometry (declination, hour angle, per-pixel
sun elevation) and the grid-building entry point `sun_elevation`.
String/calendar code is embedded as computable functions; the numeric
formulas are embedded over the real numbers.
-/

namespace RioToa

/-- Calendar timestamp: the fields of the Python `datetime.datetime` object
returned by `parse_utc_string` that this code uses. -/
structure Timestamp where
  year : Nat
  month : Nat
  day : Nat
  hour : Nat
  minute : Nat
  second : Nat
deriving DecidableEq, Repr

/-- Numeric value of a decimal digit character. -/
def digitVal (c : Char) : Nat := c.toNat - 48

/-- Consume exactly `n` characters of the class `[0-9]`, returning the rest of
the input, as one regular-expression token `[0-9]{n}`. -/
def matchDigits : Nat → List Char → Option (List Char)
  | 0, s => some s
  | _ + 1, [] => none
  | n + 1, c :: s => if c.isDigit then matchDigits n s else none

/-- Consume one literal character. -/
def matchLit (ch : Char) : List Char → Option (List Char)
  | [] => none
  | c :: s => if c = ch then some s else none

/-- Scanner for the tail of the token `[0-9]*Z` once at least one digit has
been consumed: succeeds at the first character after the maximal digit run
exactly when that character is `Z`. -/
def digitsThenZ : List Char → Bool
  | [] => false
  | c :: s => if c = 'Z' then true else if c.isDigit then digitsThenZ s else false

/-- The regular-expression token `[0-9]+Z` matched as a prefix of the input
(at least one digit, then a literal `Z`; anything may follow). -/
def oneOrMoreDigitsThenZ : List Char → Bool
  | [] => false
  | c :: s => c.isDigit && digitsThenZ s

/-- Python `re.match` of the pattern
`[0-9]{4}-[0-9]{2}-[0-9]{2} [0-9]{2}:[0-9]{2}:[0-9]{2}\.[0-9]+Z`
against the input.  `re.match` anchors only at the start of the string, so
any characters may follow the final `Z`. -/
def utcRegexMatch (s : List Char) : Bool :=
  (matchDigits 4 s >>= matchLit '-' >>= matchDigits 2 >>= matchLit '-' >>=
    matchDigits 2 >>= matchLit ' ' >>= matchDigits 2 >>= matchLit ':' >>=
    matchDigits 2 >>= matchLit ':' >>= matchDigits 2 >>= matchLit '.').elim
    false oneOrMoreDigitsThenZ

/-- Gregorian leap-year rule used by Python `datetime`. -/
def isLeap (y : Nat) : Bool := y % 4 == 0 && (y % 100 != 0 || y % 400 == 0)

/-- Length of a month in the proleptic Gregorian calendar of Python
`datetime`. -/
def daysInMonth (y m : Nat) : Nat :=
  if m = 2 then (if isLeap y then 29 else 28)
  else if m = 4 || m = 6 || m = 9 || m = 11 then 30
  else 31

/-- Field validation performed by `datetime.datetime.strptime` with format
`%Y-%m-%d %H:%M:%S` on a fixed-width `YYYY-MM-DD HH:MM:SS` string: the
`_strptime` field patterns bound month, day, hour and minute, and the
`datetime` constructor enforces the rest (year at least 1, day fitting the
month, second at most 59). -/
def calendarValid (y mo d h mi s : Nat) : Prop :=
  1 ≤ y ∧ 1 ≤ mo ∧ mo ≤ 12 ∧ 1 ≤ d ∧ d ≤ daysInMonth y mo ∧ h ≤ 23 ∧ mi ≤ 59 ∧ s ≤ 59

instance (y mo d h mi s : Nat) : Decidable (calendarValid y mo d h mi s) := by
  unfold calendarValid
  infer_instance

/-- Models Python `datetime.datetime.strptime(s, "%Y-%m-%d %H:%M:%S")`.
`_strptime` matches the format against the whole string and the `datetime`
constructor validates the field values.  The Python format also accepts
one-digit month/day/hour/minute/second forms, but `parse_utc_string` only
reaches `strptime` after its regular expression has forced the fixed-width
`YYYY-MM-DD HH:MM:SS` layout, on which this model is exact; any other layout
is rejected here just as `_strptime` rejects text that does not match the
format. -/
def strptimeYmdHMS : List Char → Except String Timestamp
  | [y1, y2, y3, y4, '-', o1, o2, '-', d1, d2, ' ',
     h1, h2, ':', i1, i2, ':', s1, s2] =>
    if (y1.isDigit && y2.isDigit && y3.isDigit && y4.isDigit &&
        o1.isDigit && o2.isDigit && d1.isDigit && d2.isDigit &&
        h1.isDigit && h2.isDigit && i1.isDigit && i2.isDigit &&
        s1.isDigit && s2.isDigit) then
      let y := 1000 * digitVal y1 + 100 * digitVal y2 + 10 * digitVal y3 + digitVal y4
      let mo := 10 * digitVal o1 + digitVal o2
      let dd := 10 * digitVal d1 + digitVal d2
      let hh := 10 * digitVal h1 + digitVal h2
      let mi := 10 * digitVal i1 + digitVal i2
      let ss := 10 * digitVal s1 + digitVal s2
      if calendarValid y mo dd hh mi ss then Except.ok ⟨y, mo, dd, hh, mi, ss⟩
      else Except.error "ValueError: datetime field out of range"
    else Except.error "ValueError: time data does not match format"
  | _ => Except.error "ValueError: time data does not match format"

/-- Python `parse_utc_string(collected_date, collected_time_utc)`: concatenate
the two strings with a space, require the start-anchored `re.match` of
`[0-9]{4}-[0-9]{2}-[0-9]{2} [0-9]{2}:[0-9]{2}:[0-9]{2}\.[0-9]+Z`
to succeed (raising `ValueError` carrying the string otherwise), then parse
everything before the first dot (`utcstr.split(".")[0]`) with
`datetime.strptime(..., "%Y-%m-%d %H:%M:%S")`. -/
def parse_utc_string (collected_date collected_time_utc : String) :
    Except String Timestamp :=
  let utcstr := collected_date ++ " " ++ collected_time_utc
  if utcRegexMatch utcstr.data then
    strptimeYmdHMS (utcstr.data.takeWhile fun c => c != '.')
  else
    Except.error (utcstr ++ " is an invalid utc time")

/-- Day-of-year, Python `timetuple().tm_yday`: 1-based ordinal day within the
timestamp's calendar year. -/
def tm_yday (ts : Timestamp) : Nat :=
  (List.range (ts.month - 1)).foldl (fun a k => a + daysInMonth ts.year (k + 1)) 0
    + ts.day

/-- Tail of the claim-side token `[0-9]*Z` anchored at BOTH ends: digits and
then a final `Z` with nothing after it. -/
def digitsThenZEnd : List Char → Bool
  | [] => false
  | ['Z'] => true
  | c :: s => c.isDigit && digitsThenZEnd s

/-- Claim-side token `[0-9]+Z` anchored at both ends. -/
def oneOrMoreDigitsThenZEnd : List Char → Bool
  | [] => false
  | c :: s => c.isDigit && digitsThenZEnd s

/-- Spec-side definition for the original claim C3: the "exact pattern"
`YYYY-MM-DD HH:MM:SS` followed by a decimal point, one or more fractional
digits and a trailing `Z`, anchored at both ends so that any extra
characters make it fail (a `re.fullmatch`, where the code performs a
`re.match`). -/
def utcExactMatch (s : List Char) : Bool :=
  (matchDigits 4 s >>= matchLit '-' >>= matchDigits 2 >>= matchLit '-' >>=
    matchDigits 2 >>= matchLit ' ' >>= matchDigits 2 >>= matchLit ':' >>=
    matchDigits 2 >>= matchLit ':' >>= matchDigits 2 >>= matchLit '.').elim
    false oneOrMoreDigitsThenZEnd

/-- Spec-side characterization for the amended claim C3: the concatenated
string starts with the fixed-width `YYYY-MM-DD HH:MM:SS` layout, a dot, one
or more fractional digits and a `Z` (after which anything may follow), and
the six fields pass standard calendar validation. -/
def SpecValidUTC (s : List Char) : Prop :=
  ∃ (y1 y2 y3 y4 o1 o2 d1 d2 h1 h2 i1 i2 s1 s2 : Char) (frac rest : List Char),
    s = [y1, y2, y3, y4, '-', o1, o2, '-', d1, d2, ' ',
         h1, h2, ':', i1, i2, ':', s1, s2, '.'] ++ (frac ++ 'Z' :: rest) ∧
    y1.isDigit = true ∧ y2.isDigit = true ∧ y3.isDigit = true ∧ y4.isDigit = true ∧
    o1.isDigit = true ∧ o2.isDigit = true ∧ d1.isDigit = true ∧ d2.isDigit = true ∧
    h1.isDigit = true ∧ h2.isDigit = true ∧ i1.isDigit = true ∧ i2.isDigit = true ∧
    s1.isDigit = true ∧ s2.isDigit = true ∧
    frac ≠ [] ∧ frac.all Char.isDigit = true ∧
    calendarValid
      (1000 * digitVal y1 + 100 * digitVal y2 + 10 * digitVal y3 + digitVal y4)
      (10 * digitVal o1 + digitVal o2) (10 * digitVal d1 + digitVal d2)
      (10 * digitVal h1 + digitVal h2) (10 * digitVal i1 + digitVal i2)
      (10 * digitVal s1 + digitVal s2)

noncomputable section

/-- Python `time_to_dec_hour(parsedtime)`:
`hour + minute / 60.0 + second / 60.0 ** 2`. -/
def time_to_dec_hour (parsedtime : Timestamp) : ℝ :=
  (parsedtime.hour : ℝ) + (parsedtime.minute : ℝ) / 60.0 +
    (parsedtime.second : ℝ) / 60.0 ^ 2

/-- numpy `deg2rad`. -/
def deg2rad (x : ℝ) : ℝ := x * (Real.pi / 180)

/-- numpy `rad2deg`. -/
def rad2deg (x : ℝ) : ℝ := x * (180 / Real.pi)

/-- numpy `mean` of a rows × cols array. -/
def npMean (rows cols : Nat) (g : Nat → Nat → ℝ) : ℝ :=
  (∑ i ∈ Finset.range rows, ∑ j ∈ Finset.range cols, g i j) /
    ((rows : ℝ) * (cols : ℝ))

/-- Python `calculate_declination(d, lat)`, with `lat` a rows × cols array.
The hemisphere factor transcribes the Python arithmetic
`((np.mean(lat) > 0) + 1) * 2 - 3`, in which the boolean counts as 1 or 0. -/
def calculate_declination (d : ℝ) (rows cols : Nat) (lat : Nat → Nat → ℝ) : ℝ :=
  Real.arcsin (0.39799 * Real.cos (deg2rad 0.98565 * (d + 10) +
      deg2rad 1.914 * Real.sin (deg2rad 0.98565 * (d - 2)))) *
    (((if npMean rows cols lat > 0 then (1 : ℝ) else 0) + 1) * 2 - 3)

/-- Python `solar_angle(utc_hour, longitude)`. -/
def solar_angle (utc_hour longitude : ℝ) : ℝ :=
  let localtime := (longitude / 180.0) * 12 + utc_hour
  (localtime - 12.0) * (360.0 / 24.0)

/-- Python `_calculate_sun_elevation(longitude, latitude, declination,
utc_hour)`, per array element. -/
def _calculate_sun_elevation (longitude latitude declination utc_hour : ℝ) : ℝ :=
  let hour_angle := solar_angle utc_hour longitude
  90 - rad2deg (Real.arcsin
    (Real.sin (deg2rad latitude) * Real.sin declination +
     Real.cos (deg2rad latitude) * Real.cos declination *
       Real.cos (deg2rad hour_angle)))

/-- rasterio-style bounding box: fields in the order (left, bottom, right,
top). -/
structure BoundingBox where
  left : ℝ
  bottom : ℝ
  right : ℝ
  top : ℝ

/-- Shape unpacking in `sun_elevation`: `_, rows, cols = shape` for a 3-tuple,
`rows, cols = shape` otherwise (any other length raises in Python). -/
def rowsCols : List Nat → Option (Nat × Nat)
  | [_, rows, cols] => some (rows, cols)
  | [rows, cols] => some (rows, cols)
  | _ => none

/-- Longitude of the pixel-center grid built in `sun_elevation` at column `j`:
`(lng.astype(float32) * xCell) + bounds.left + (xCell / 2.0)` where
`xCell = (bounds.right - bounds.left) / float(cols)` and `lng` holds the
column index. -/
def gridLng (bounds : BoundingBox) (cols : Nat) (j : Nat) : ℝ :=
  let xCell := (bounds.right - bounds.left) / (cols : ℝ)
  (j : ℝ) * xCell + bounds.left + xCell / 2.0

/-- Latitude of the pixel-center grid built in `sun_elevation` at row `i`:
`(lat.astype(float32) * yCell) + bounds.bottom + (yCell / 2.0)` where
`yCell = (bounds.top - bounds.bottom) / float(rows)` and `lat` holds the
row index. -/
def gridLat (bounds : BoundingBox) (rows : Nat) (i : Nat) : ℝ :=
  let yCell := (bounds.top - bounds.bottom) / (rows : ℝ)
  (i : ℝ) * yCell + bounds.bottom + yCell / 2.0

/-- Python `sun_elevation(bounds, shape, date_collected, time_collected_utc)`:
parse the timestamp, unpack the shape, build the pixel-center grid, and apply
`_calculate_sun_elevation` elementwise (the Python local `solar_hour_angle`
is computed but unused — `_calculate_sun_elevation` recomputes it).  The
resulting array is returned as (rows, cols, entries). -/
def sun_elevation (bounds : BoundingBox) (shape : List Nat)
    (date_collected time_collected_utc : String) :
    Except String (Nat × Nat × (Nat → Nat → ℝ)) :=
  match parse_utc_string date_collected time_collected_utc with
  | Except.error e => Except.error e
  | Except.ok utc_time =>
    match rowsCols shape with
    | none => Except.error "ValueError: cannot unpack shape"
    | some (rows, cols) =>
      let decimal_hour := time_to_dec_hour utc_time
      let declination := calculate_declination (tm_yday utc_time : ℝ) rows cols
        (fun i _ => gridLat bounds rows i)
      Except.ok (rows, cols, fun i j =>
        _calculate_sun_elevation (gridLng bounds cols j) (gridLat bounds rows i)
          declination decimal_hour)

end

/-! Helper lemmas shared by several claim theorems. -/

theorem elim_false_eq_true {α : Type} {o : Option α} {f : α → Bool} :
    o.elim false f = true ↔ ∃ r, o = some r ∧ f r = true := by
  cases o <;> simp [Option.elim]

theorem matchLit_iff {ch : Char} {s r : List Char} :
    matchLit ch s = some r ↔ s = ch :: r := by
  cases s with
  | nil => simp [matchLit]
  | cons c cs =>
    by_cases h : c = ch
    · subst h
      simp [matchLit]
    · simp [matchLit, h]

theorem matchDigits_two_iff {s r : List Char} :
    matchDigits 2 s = some r ↔
      ∃ a b, s = a :: b :: r ∧ a.isDigit = true ∧ b.isDigit = true := by
  constructor
  · intro h
    cases s with
    | nil => simp [matchDigits] at h
    | cons a s1 =>
      cases s1 with
      | nil =>
        by_cases ha : a.isDigit <;> simp [matchDigits, ha] at h
      | cons b s2 =>
        by_cases ha : a.isDigit
        · by_cases hb : b.isDigit
          · simp [matchDigits, ha, hb] at h
            exact ⟨a, b, by rw [h], ha, hb⟩
          · simp [matchDigits, ha, hb] at h
        · simp [matchDigits, ha] at h
  · rintro ⟨a, b, rfl, ha, hb⟩
    simp [matchDigits, ha, hb]

theorem matchDigits_four_eq (s : List Char) :
    matchDigits 4 s = matchDigits 2 s >>= matchDigits 2 := by
  cases s with
  | nil => rfl
  | cons a s1 =>
    by_cases ha : a.isDigit
    · cases s1 with
      | nil => simp [matchDigits, ha]
      | cons b s2 =>
        by_cases hb : b.isDigit <;> simp [matchDigits, ha, hb]
    · simp [matchDigits, ha]

theorem matchDigits_four_iff {s r : List Char} :
    matchDigits 4 s = some r ↔
      ∃ a b c d, s = a :: b :: c :: d :: r ∧ a.isDigit = true ∧ b.isDigit = true ∧
        c.isDigit = true ∧ d.isDigit = true := by
  rw [matchDigits_four_eq, Option.bind_eq_bind', Option.bind_eq_some']
  constructor
  · rintro ⟨m, hm1, hm2⟩
    obtain ⟨a, b, rfl, ha, hb⟩ := matchDigits_two_iff.mp hm1
    obtain ⟨c, d, rfl, hc, hd⟩ := matchDigits_two_iff.mp hm2
    exact ⟨a, b, c, d, rfl, ha, hb, hc, hd⟩
  · rintro ⟨a, b, c, d, rfl, ha, hb, hc, hd⟩
    exact ⟨c :: d :: r, matchDigits_two_iff.mpr ⟨a, b, rfl, ha, hb⟩,
      matchDigits_two_iff.mpr ⟨c, d, rfl, hc, hd⟩⟩

theorem digit_bne_dot {c : Char} (hc : c.isDigit = true) : (c != '.') = true := by
  rcases eq_or_ne c '.' with rfl | h
  · exact absurd hc (by decide)
  · simpa [bne_iff_ne] using h

theorem digitsThenZ_iff {l : List Char} :
    digitsThenZ l = true ↔
      ∃ ds rest, l = ds ++ 'Z' :: rest ∧ ds.all Char.isDigit = true := by
  induction l with
  | nil =>
    simp only [digitsThenZ, Bool.false_eq_true, false_iff]
    rintro ⟨ds, rest, h, -⟩
    exact absurd h.symm (List.append_ne_nil_of_right_ne_nil ds (by simp))
  | cons c l ih =>
    by_cases hz : c = 'Z'
    · subst hz
      constructor
      · intro _
        exact ⟨[], l, rfl, rfl⟩
      · intro _
        simp [digitsThenZ]
    · by_cases hd : c.isDigit
      · rw [show digitsThenZ (c :: l) = digitsThenZ l by simp [digitsThenZ, hz, hd], ih]
        constructor
        · rintro ⟨ds, rest, rfl, hall⟩
          exact ⟨c :: ds, rest, rfl, by simp [hd, hall]⟩
        · rintro ⟨ds, rest, heq, hall⟩
          cases ds with
          | nil =>
            simp only [List.nil_append, List.cons.injEq] at heq
            exact absurd heq.1 hz
          | cons e ds =>
            simp only [List.cons_append, List.cons.injEq] at heq
            obtain ⟨rfl, rfl⟩ := heq
            simp only [List.all_cons, Bool.and_eq_true] at hall
            exact ⟨ds, rest, rfl, hall.2⟩
      · rw [show digitsThenZ (c :: l) = false by simp [digitsThenZ, hz, hd]]
        simp only [Bool.false_eq_true, false_iff]
        rintro ⟨ds, rest, heq, hall⟩
        cases ds with
        | nil =>
          simp only [List.nil_append, List.cons.injEq] at heq
          exact absurd heq.1 hz
        | cons e ds =>
          simp only [List.cons_append, List.cons.injEq] at heq
          simp only [List.all_cons, Bool.and_eq_true] at hall
          exact absurd (heq.1 ▸ hall.1) (by simpa using hd)

theorem oneOrMoreDigitsThenZ_iff {l : List Char} :
    oneOrMoreDigitsThenZ l = true ↔
      ∃ frac rest, l = frac ++ 'Z' :: rest ∧ frac ≠ [] ∧
        frac.all Char.isDigit = true := by
  cases l with
  | nil =>
    simp only [oneOrMoreDigitsThenZ, Bool.false_eq_true, false_iff]
    rintro ⟨frac, rest, h, -, -⟩
    exact absurd h.symm (List.append_ne_nil_of_right_ne_nil frac (by simp))
  | cons c l =>
    simp only [oneOrMoreDigitsThenZ, Bool.and_eq_true, digitsThenZ_iff]
    constructor
    · rintro ⟨hc, ds, rest, rfl, hall⟩
      exact ⟨c :: ds, rest, rfl, by simp, by simp [hc, hall]⟩
    · rintro ⟨frac, rest, heq, hne, hall⟩
      cases frac with
      | nil => exact absurd rfl hne
      | cons e frac =>
        simp only [List.cons_append, List.cons.injEq] at heq
        obtain ⟨rfl, rfl⟩ := heq
        simp only [List.all_cons, Bool.and_eq_true] at hall
        exact ⟨hall.1, frac, rest, rfl, hall.2⟩

theorem takeWhile_to_dot (y1 y2 y3 y4 o1 o2 d1 d2 h1 h2 i1 i2 s1 s2 : Char)
    (tail : List Char)
    (hy1 : y1.isDigit = true) (hy2 : y2.isDigit = true) (hy3 : y3.isDigit = true)
    (hy4 : y4.isDigit = true) (ho1 : o1.isDigit = true) (ho2 : o2.isDigit = true)
    (hd1 : d1.isDigit = true) (hd2 : d2.isDigit = true) (hh1 : h1.isDigit = true)
    (hh2 : h2.isDigit = true) (hi1 : i1.isDigit = true) (hi2 : i2.isDigit = true)
    (hs1 : s1.isDigit = true) (hs2 : s2.isDigit = true) :
    List.takeWhile (fun c => c != '.')
        ([y1, y2, y3, y4, '-', o1, o2, '-', d1, d2, ' ',
          h1, h2, ':', i1, i2, ':', s1, s2, '.'] ++ tail) =
      [y1, y2, y3, y4, '-', o1, o2, '-', d1, d2, ' ',
       h1, h2, ':', i1, i2, ':', s1, s2] := by
  simp [List.takeWhile_cons, digit_bne_dot hy1, digit_bne_dot hy2, digit_bne_dot hy3,
    digit_bne_dot hy4, digit_bne_dot ho1, digit_bne_dot ho2, digit_bne_dot hd1,
    digit_bne_dot hd2, digit_bne_dot hh1, digit_bne_dot hh2, digit_bne_dot hi1,
    digit_bne_dot hi2, digit_bne_dot hs1, digit_bne_dot hs2]

theorem utcRegexMatch_iff {s : List Char} :
    utcRegexMatch s = true ↔
      ∃ (y1 y2 y3 y4 o1 o2 d1 d2 h1 h2 i1 i2 s1 s2 : Char) (frac rest : List Char),
        s = [y1, y2, y3, y4, '-', o1, o2, '-', d1, d2, ' ',
             h1, h2, ':', i1, i2, ':', s1, s2, '.'] ++ (frac ++ 'Z' :: rest) ∧
        y1.isDigit = true ∧ y2.isDigit = true ∧ y3.isDigit = true ∧ y4.isDigit = true ∧
        o1.isDigit = true ∧ o2.isDigit = true ∧ d1.isDigit = true ∧ d2.isDigit = true ∧
        h1.isDigit = true ∧ h2.isDigit = true ∧ i1.isDigit = true ∧ i2.isDigit = true ∧
        s1.isDigit = true ∧ s2.isDigit = true ∧
        frac ≠ [] ∧ frac.all Char.isDigit = true := by
  unfold utcRegexMatch
  rw [elim_false_eq_true]
  constructor
  · rintro ⟨r, hchain, hone⟩
    simp only [Option.bind_eq_bind', Option.bind_eq_some'] at hchain
    obtain ⟨a11, ⟨a10, ⟨a9, ⟨a8, ⟨a7, ⟨a6, ⟨a5, ⟨a4, ⟨a3, ⟨a2, ⟨a1, hq1, hq2⟩,
      hq3⟩, hq4⟩, hq5⟩, hq6⟩, hq7⟩, hq8⟩, hq9⟩, hq10⟩, hq11⟩, hq12⟩ := hchain
    obtain ⟨y1, y2, y3, y4, rfl, hy1, hy2, hy3, hy4⟩ := matchDigits_four_iff.mp hq1
    obtain rfl := matchLit_iff.mp hq2
    obtain ⟨o1, o2, rfl, ho1, ho2⟩ := matchDigits_two_iff.mp hq3
    obtain rfl := matchLit_iff.mp hq4
    obtain ⟨d1, d2, rfl, hd1, hd2⟩ := matchDigits_two_iff.mp hq5
    obtain rfl := matchLit_iff.mp hq6
    obtain ⟨h1, h2, rfl, hh1, hh2⟩ := matchDigits_two_iff.mp hq7
    obtain rfl := matchLit_iff.mp hq8
    obtain ⟨i1, i2, rfl, hi1, hi2⟩ := matchDigits_two_iff.mp hq9
    obtain rfl := matchLit_iff.mp hq10
    obtain ⟨s1, s2, rfl, hs1, hs2⟩ := matchDigits_two_iff.mp hq11
    obtain rfl := matchLit_iff.mp hq12
    obtain ⟨frac, rest, rfl, hne, hall⟩ := oneOrMoreDigitsThenZ_iff.mp hone
    exact ⟨y1, y2, y3, y4, o1, o2, d1, d2, h1, h2, i1, i2, s1, s2, frac, rest, rfl,
      hy1, hy2, hy3, hy4, ho1, ho2, hd1, hd2, hh1, hh2, hi1, hi2, hs1, hs2, hne, hall⟩
  · rintro ⟨y1, y2, y3, y4, o1, o2, d1, d2, h1, h2, i1, i2, s1, s2, frac, rest, rfl,
      hy1, hy2, hy3, hy4, ho1, ho2, hd1, hd2, hh1, hh2, hi1, hi2, hs1, hs2, hne, hall⟩
    refine ⟨frac ++ 'Z' :: rest, ?_,
      oneOrMoreDigitsThenZ_iff.mpr ⟨frac, rest, rfl, hne, hall⟩⟩
    simp [matchDigits, matchLit, hy1, hy2, hy3, hy4, ho1, ho2, hd1, hd2,
      hh1, hh2, hi1, hi2, hs1, hs2]

/-- C3 as stated fails on the code: the concatenation
`2020-06-01 12:00:00.5Zx` deviates from the exact pattern (the trailing `x`
is an extra character), yet `parse_utc_string` succeeds, because `re.match`
anchors the pattern only at the start of the string. -/
theorem parse_accepts_trailing_characters :
    utcExactMatch ("2020-06-01 12:00:00.5Zx").data = false ∧
    parse_utc_string "2020-06-01" "12:00:00.5Zx" =
      Except.ok ⟨2020, 6, 1, 12, 0, 0⟩ :=
  ⟨by rfl, by rfl⟩

/-- C3 amended: `parse_utc_string` succeeds exactly when the concatenated
string STARTS WITH the pattern `YYYY-MM-DD HH:MM:SS` + dot + one or more
fractional digits + `Z` (characters after the `Z` are accepted, since
`re.match` anchors only at the start) and the six fields pass standard
calendar validation; otherwise it raises the error. -/
theorem parse_utc_string_ok_iff (collected_date collected_time_utc : String) :
    (∃ ts, parse_utc_string collected_date collected_time_utc = Except.ok ts) ↔
    SpecValidUTC (collected_date ++ " " ++ collected_time_utc).data := by
  constructor
  · rintro ⟨ts, h⟩
    simp only [parse_utc_string] at h
    split_ifs at h with hreg
    · obtain ⟨y1, y2, y3, y4, o1, o2, d1, d2, h1, h2, i1, i2, s1, s2, frac, rest,
        heq, hy1, hy2, hy3, hy4, ho1, ho2, hd1, hd2, hh1, hh2, hi1, hi2, hs1, hs2,
        hne, hall⟩ := utcRegexMatch_iff.mp hreg
      rw [heq, takeWhile_to_dot y1 y2 y3 y4 o1 o2 d1 d2 h1 h2 i1 i2 s1 s2 _
        hy1 hy2 hy3 hy4 ho1 ho2 hd1 hd2 hh1 hh2 hi1 hi2 hs1 hs2] at h
      simp only [strptimeYmdHMS, hy1, hy2, hy3, hy4, ho1, ho2, hd1, hd2, hh1, hh2,
        hi1, hi2, hs1, hs2, Bool.and_self, if_true] at h
      split_ifs at h with hcal
      · exact ⟨y1, y2, y3, y4, o1, o2, d1, d2, h1, h2, i1, i2, s1, s2, frac, rest,
          heq, hy1, hy2, hy3, hy4, ho1, ho2, hd1, hd2, hh1, hh2, hi1, hi2, hs1, hs2,
          hne, hall, hcal⟩
  · rintro ⟨y1, y2, y3, y4, o1, o2, d1, d2, h1, h2, i1, i2, s1, s2, frac, rest,
      heq, hy1, hy2, hy3, hy4, ho1, ho2, hd1, hd2, hh1, hh2, hi1, hi2, hs1, hs2,
      hne, hall, hcal⟩
    have hreg : utcRegexMatch
        ([y1, y2, y3, y4, '-', o1, o2, '-', d1, d2, ' ',
          h1, h2, ':', i1, i2, ':', s1, s2, '.'] ++ (frac ++ 'Z' :: rest)) = true :=
      utcRegexMatch_iff.mpr ⟨y1, y2, y3, y4, o1, o2, d1, d2, h1, h2, i1, i2, s1, s2,
        frac, rest, rfl, hy1, hy2, hy3, hy4, ho1, ho2, hd1, hd2, hh1, hh2, hi1, hi2,
        hs1, hs2, hne, hall⟩
    simp only [parse_utc_string]
    rw [heq, if_pos hreg, takeWhile_to_dot y1 y2 y3 y4 o1 o2 d1 d2 h1 h2 i1 i2 s1 s2 _
      hy1 hy2 hy3 hy4 ho1 ho2 hd1 hd2 hh1 hh2 hi1 hi2 hs1 hs2]
    simp only [strptimeYmdHMS, hy1, hy2, hy3, hy4, ho1, ho2, hd1, hd2, hh1, hh2,
      hi1, hi2, hs1, hs2, Bool.and_self, if_true]
    rw [if_pos hcal]
    exact ⟨_, rfl⟩

/-- Evaluation of `parse_utc_string` on a fixed-width date plus a time whose
fractional-second digits are arbitrary: the result is `strptime` applied to
the 19 characters before the dot, independently of the fraction. -/
theorem parse_fixed_layout (y1 y2 y3 y4 o1 o2 d1 d2 h1 h2 i1 i2 s1 s2 : Char)
    (frac : List Char)
    (hy1 : y1.isDigit = true) (hy2 : y2.isDigit = true) (hy3 : y3.isDigit = true)
    (hy4 : y4.isDigit = true) (ho1 : o1.isDigit = true) (ho2 : o2.isDigit = true)
    (hd1 : d1.isDigit = true) (hd2 : d2.isDigit = true) (hh1 : h1.isDigit = true)
    (hh2 : h2.isDigit = true) (hi1 : i1.isDigit = true) (hi2 : i2.isDigit = true)
    (hs1 : s1.isDigit = true) (hs2 : s2.isDigit = true)
    (hne : frac ≠ []) (hall : frac.all Char.isDigit = true) :
    parse_utc_string (String.mk [y1, y2, y3, y4, '-', o1, o2, '-', d1, d2])
        (String.mk ([h1, h2, ':', i1, i2, ':', s1, s2, '.'] ++ (frac ++ ['Z']))) =
      strptimeYmdHMS [y1, y2, y3, y4, '-', o1, o2, '-', d1, d2, ' ',
        h1, h2, ':', i1, i2, ':', s1, s2] := by
  have hdata : (String.mk [y1, y2, y3, y4, '-', o1, o2, '-', d1, d2] ++ " " ++
      String.mk ([h1, h2, ':', i1, i2, ':', s1, s2, '.'] ++ (frac ++ ['Z']))).data =
      [y1, y2, y3, y4, '-', o1, o2, '-', d1, d2, ' ',
       h1, h2, ':', i1, i2, ':', s1, s2, '.'] ++ (frac ++ 'Z' :: ([] : List Char)) := by
    rfl
  have hreg : utcRegexMatch
      ([y1, y2, y3, y4, '-', o1, o2, '-', d1, d2, ' ',
        h1, h2, ':', i1, i2, ':', s1, s2, '.'] ++
        (frac ++ 'Z' :: ([] : List Char))) = true :=
    utcRegexMatch_iff.mpr ⟨y1, y2, y3, y4, o1, o2, d1, d2, h1, h2, i1, i2, s1, s2,
      frac, [], rfl, hy1, hy2, hy3, hy4, ho1, ho2, hd1, hd2, hh1, hh2, hi1, hi2,
      hs1, hs2, hne, hall⟩
  simp only [parse_utc_string]
  rw [hdata, if_pos hreg, takeWhile_to_dot y1 y2 y3 y4 o1 o2 d1 d2 h1 h2 i1 i2 s1 s2 _
    hy1 hy2 hy3 hy4 ho1 ho2 hd1 hd2 hh1 hh2 hi1 hi2 hs1 hs2]

/-- C8: for a fixed valid date layout and two times that agree on `HH:MM:SS`
and differ only in their (nonempty, all-digit) fractional-second strings,
`parse_utc_string` returns identical results; and whenever the fields pass
calendar validation both calls succeed with that common Timestamp. -/
theorem parse_fractional_seconds_irrelevant
    (y1 y2 y3 y4 o1 o2 d1 d2 h1 h2 i1 i2 s1 s2 : Char) (f1 f2 : List Char)
    (hy1 : y1.isDigit = true) (hy2 : y2.isDigit = true) (hy3 : y3.isDigit = true)
    (hy4 : y4.isDigit = true) (ho1 : o1.isDigit = true) (ho2 : o2.isDigit = true)
    (hd1 : d1.isDigit = true) (hd2 : d2.isDigit = true) (hh1 : h1.isDigit = true)
    (hh2 : h2.isDigit = true) (hi1 : i1.isDigit = true) (hi2 : i2.isDigit = true)
    (hs1 : s1.isDigit = true) (hs2 : s2.isDigit = true)
    (hf1 : f1 ≠ []) (hf1d : f1.all Char.isDigit = true)
    (hf2 : f2 ≠ []) (hf2d : f2.all Char.isDigit = true) :
    parse_utc_string (String.mk [y1, y2, y3, y4, '-', o1, o2, '-', d1, d2])
        (String.mk ([h1, h2, ':', i1, i2, ':', s1, s2, '.'] ++ (f1 ++ ['Z']))) =
      parse_utc_string (String.mk [y1, y2, y3, y4, '-', o1, o2, '-', d1, d2])
        (String.mk ([h1, h2, ':', i1, i2, ':', s1, s2, '.'] ++ (f2 ++ ['Z']))) ∧
    (calendarValid
        (1000 * digitVal y1 + 100 * digitVal y2 + 10 * digitVal y3 + digitVal y4)
        (10 * digitVal o1 + digitVal o2) (10 * digitVal d1 + digitVal d2)
        (10 * digitVal h1 + digitVal h2) (10 * digitVal i1 + digitVal i2)
        (10 * digitVal s1 + digitVal s2) →
      ∃ ts, parse_utc_string (String.mk [y1, y2, y3, y4, '-', o1, o2, '-', d1, d2])
          (String.mk ([h1, h2, ':', i1, i2, ':', s1, s2, '.'] ++ (f1 ++ ['Z']))) =
        Except.ok ts) := by
  have e1 := parse_fixed_layout y1 y2 y3 y4 o1 o2 d1 d2 h1 h2 i1 i2 s1 s2 f1
    hy1 hy2 hy3 hy4 ho1 ho2 hd1 hd2 hh1 hh2 hi1 hi2 hs1 hs2 hf1 hf1d
  have e2 := parse_fixed_layout y1 y2 y3 y4 o1 o2 d1 d2 h1 h2 i1 i2 s1 s2 f2
    hy1 hy2 hy3 hy4 ho1 ho2 hd1 hd2 hh1 hh2 hi1 hi2 hs1 hs2 hf2 hf2d
  refine ⟨e1.trans e2.symm, fun hcal => ?_⟩
  rw [e1]
  simp only [strptimeYmdHMS, hy1, hy2, hy3, hy4, ho1, ho2, hd1, hd2, hh1, hh2,
    hi1, hi2, hs1, hs2, Bool.and_self, if_true]
  rw [if_pos hcal]
  exact ⟨_, rfl⟩

/-- Witness for C8 at the concrete pair from the specification. -/
theorem parse_fractional_seconds_irrelevant_witness :
    parse_utc_string "2020-06-01" "12:00:00.000Z" =
      parse_utc_string "2020-06-01" "12:00:00.999999999Z" ∧
    parse_utc_string "2020-06-01" "12:00:00.000Z" =
      Except.ok ⟨2020, 6, 1, 12, 0, 0⟩ :=
  ⟨(parse_fractional_seconds_irrelevant '2' '0' '2' '0' '0' '6' '0' '1'
      '1' '2' '0' '0' '0' '0'
      ['0', '0', '0'] ['9', '9', '9', '9', '9', '9', '9', '9', '9']
      (by decide) (by decide) (by decide) (by decide) (by decide) (by decide)
      (by decide) (by decide) (by decide) (by decide) (by decide) (by decide)
      (by decide) (by decide) (by decide) (by decide) (by decide) (by decide)).1,
   by rfl⟩

theorem abs_arcsin_le {x a : ℝ} (h : |x| ≤ a) : |Real.arcsin x| ≤ Real.arcsin a := by
  rw [abs_le] at h ⊢
  constructor
  · rw [← Real.arcsin_neg]
    exact Real.monotone_arcsin h.1
  · exact Real.monotone_arcsin h.2

theorem abs_cos_arg_le (θ : ℝ) : |0.39799 * Real.cos θ| ≤ (0.39799 : ℝ) := by
  rw [abs_mul, abs_of_pos (show (0 : ℝ) < 0.39799 by norm_num)]
  nlinarith [Real.abs_cos_le_one θ, abs_nonneg (Real.cos θ)]

theorem abs_calculate_declination_le (d : ℝ) (rows cols : Nat)
    (lat : Nat → Nat → ℝ) :
    |calculate_declination d rows cols lat| ≤ Real.arcsin 0.39799 := by
  unfold calculate_declination
  rw [abs_mul]
  have hsign : |((if npMean rows cols lat > 0 then (1 : ℝ) else 0) + 1) * 2 - 3| = 1 := by
    split <;> norm_num
  rw [hsign, mul_one]
  exact abs_arcsin_le (abs_cos_arg_le _)

theorem elevation_midnight_gt (D : ℝ) (hD : |D| ≤ Real.arcsin 0.39799) :
    90 < _calculate_sun_elevation 0 0 D 0 := by
  have hDlt : |D| < Real.pi / 2 :=
    lt_of_le_of_lt hD (Real.arcsin_lt_pi_div_two.mpr (by norm_num))
  have hcos : 0 < Real.cos D :=
    Real.cos_pos_of_mem_Ioo ⟨(abs_lt.mp hDlt).1, (abs_lt.mp hDlt).2⟩
  simp only [_calculate_sun_elevation, solar_angle, deg2rad, rad2deg]
  have h1 : ((0 : ℝ) / 180.0 * 12 + 0 - 12.0) * (360.0 / 24.0) * (Real.pi / 180) =
      -Real.pi := by
    ring
  rw [h1, Real.cos_neg, Real.cos_pi]
  norm_num
  have h3 : 0 < Real.arcsin (Real.cos D) := Real.arcsin_pos.mpr hcos
  have h4 : (0 : ℝ) < 180 / Real.pi := by positivity
  exact mul_pos h3 h4

theorem elevation_noon_zero : _calculate_sun_elevation 0 0 0 12 = 0 := by
  simp only [_calculate_sun_elevation, solar_angle, deg2rad, rad2deg]
  norm_num [Real.arcsin_one]
  field_simp
  ring

theorem elevation_midnight : _calculate_sun_elevation 0 0 0 0 = 180 := by
  simp only [_calculate_sun_elevation, solar_angle, deg2rad, rad2deg]
  have h : ((0 : ℝ) / 180.0 * 12 + 0 - 12.0) * (360.0 / 24.0) * (Real.pi / 180) =
      -Real.pi := by
    ring
  rw [h, Real.cos_neg, Real.cos_pi]
  norm_num [Real.arcsin_neg_one]
  field_simp
  ring

/-- C6: the hour angle returned by `solar_angle` is
`((longitude/180·12 + utcHour) − 12) · 15` degrees. -/
theorem solar_angle_formula (utc_hour longitude : ℝ) :
    solar_angle utc_hour longitude = (longitude / 180 * 12 + utc_hour - 12) * 15 := by
  simp only [solar_angle]
  norm_num

/-- C5: `calculate_declination` equals the spec's
`asin(0.39799·cos(θ₁ + 1.914°·sin θ₂))` with `θ₁ = 0.98565°·(d+10)` and
`θ₂ = 0.98565°·(d−2)`, multiplied by +1 when the mean latitude of the grid is
strictly positive and by −1 otherwise. -/
theorem calculate_declination_formula (d : ℝ) (rows cols : Nat)
    (lat : Nat → Nat → ℝ) :
    calculate_declination d rows cols lat =
      Real.arcsin (0.39799 * Real.cos (deg2rad (0.98565 * (d + 10)) +
        deg2rad 1.914 * Real.sin (deg2rad (0.98565 * (d - 2))))) *
      (if npMean rows cols lat > 0 then 1 else -1) := by
  unfold calculate_declination
  have h1 : deg2rad 0.98565 * (d + 10) = deg2rad (0.98565 * (d + 10)) := by
    unfold deg2rad; ring
  have h2 : deg2rad 0.98565 * (d - 2) = deg2rad (0.98565 * (d - 2)) := by
    unfold deg2rad; ring
  rw [h1, h2]
  split <;> norm_num

/-- C10: the declination has absolute value at most `arcsin 0.39799`
(about 23.46°), the hemisphere multiplier is exactly +1 or −1, and the
arcsine argument has absolute value at most 0.39799. -/
theorem calculate_declination_bounded (d : ℝ) (rows cols : Nat)
    (lat : Nat → Nat → ℝ) :
    |calculate_declination d rows cols lat| ≤ Real.arcsin 0.39799 ∧
    (((if npMean rows cols lat > 0 then (1 : ℝ) else 0) + 1) * 2 - 3 = 1 ∨
      ((if npMean rows cols lat > 0 then (1 : ℝ) else 0) + 1) * 2 - 3 = -1) ∧
    |0.39799 * Real.cos (deg2rad 0.98565 * (d + 10) +
        deg2rad 1.914 * Real.sin (deg2rad 0.98565 * (d - 2)))| ≤ 0.39799 := by
  refine ⟨abs_calculate_declination_le d rows cols lat, ?_, abs_cos_arg_le _⟩
  split <;> norm_num

/-- C9 as stated fails: at longitude 0, latitude 0, declination 0, flipping
the sign of the longitude and shifting UTC time by 12 hours turns local
midnight (computed value 180) into local noon (computed value 0). -/
theorem elevation_lng_flip_12h_fails :
    _calculate_sun_elevation 0 0 0 0 = 180 ∧
    _calculate_sun_elevation (-0) 0 0 (0 + 12) = 0 ∧
    ¬ |_calculate_sun_elevation 0 0 0 0 -
        _calculate_sun_elevation (-0) 0 0 (0 + 12)| ≤ 1 := by
  have h2 : _calculate_sun_elevation (-0) 0 0 (0 + 12) = 0 := by
    rw [neg_zero]
    norm_num [elevation_noon_zero]
  refine ⟨elevation_midnight, h2, ?_⟩
  rw [elevation_midnight, h2]
  norm_num

/-- C9 amended: the elevation is symmetric under a sign flip of the longitude
combined with reflecting the UTC decimal hour about the day
(`u ↦ 24 − u`), exactly. -/
theorem elevation_lng_flip_hour_reflect (longitude latitude declination u : ℝ) :
    _calculate_sun_elevation (-longitude) latitude declination (24 - u) =
      _calculate_sun_elevation longitude latitude declination u := by
  simp only [_calculate_sun_elevation, solar_angle, deg2rad, rad2deg]
  have h : (-longitude / 180.0 * 12 + (24 - u) - 12.0) * (360.0 / 24.0) *
        (Real.pi / 180) =
      -((longitude / 180.0 * 12 + u - 12.0) * (360.0 / 24.0) * (Real.pi / 180)) := by
    ring
  rw [h, Real.cos_neg]

/-- C1 fails on the code: with declination 0 (equinox) and hour angle 0
(latitude 0, longitude 0, UTC hour 12, local solar noon) the code returns 0,
not 90 − |latitude| = 90: the formula `90 − rad2deg(arcsin ...)` yields the
solar zenith angle, contradicting the function's own docstring, which
promises the solar elevation angle. -/
theorem equinox_noon_elevation_bug :
    solar_angle 12 0 = 0 ∧
    _calculate_sun_elevation 0 0 0 12 = 0 ∧
    ¬ |_calculate_sun_elevation 0 0 0 12 - (90 - |(0 : ℝ)|)| ≤ 1 := by
  refine ⟨by simp only [solar_angle]; norm_num, elevation_noon_zero, ?_⟩
  rw [elevation_noon_zero]
  norm_num

/-- C4: the grid built by `sun_elevation` samples pixel centers:
column `j` sits at `left + (j + 1/2)·cellWidth`, row `i` at
`bottom + (i + 1/2)·cellHeight`, longitudes increasing left-to-right and
latitudes increasing bottom-to-top. -/
theorem grid_pixel_centers (b : BoundingBox) (rows cols i j : Nat)
    (hi : i < rows) (hj : j < cols)
    (hx : b.left < b.right) (hy : b.bottom < b.top) :
    gridLng b cols j = b.left + ((j : ℝ) + 1 / 2) * ((b.right - b.left) / (cols : ℝ)) ∧
    gridLat b rows i = b.bottom + ((i : ℝ) + 1 / 2) * ((b.top - b.bottom) / (rows : ℝ)) ∧
    gridLng b cols j < gridLng b cols (j + 1) ∧
    gridLat b rows i < gridLat b rows (i + 1) := by
  have hcols : (0 : ℝ) < (cols : ℝ) := by
    exact_mod_cast lt_of_le_of_lt (Nat.zero_le j) hj
  have hrows : (0 : ℝ) < (rows : ℝ) := by
    exact_mod_cast lt_of_le_of_lt (Nat.zero_le i) hi
  have hxc : 0 < (b.right - b.left) / (cols : ℝ) := div_pos (sub_pos.mpr hx) hcols
  have hyc : 0 < (b.top - b.bottom) / (rows : ℝ) := div_pos (sub_pos.mpr hy) hrows
  refine ⟨by simp only [gridLng]; ring, by simp only [gridLat]; ring, ?_, ?_⟩
  · simp only [gridLng]
    push_cast
    nlinarith [hxc]
  · simp only [gridLat]
    push_cast
    nlinarith [hyc]

/-- Witness for C4 at the unit bounding box with a 1×1 grid. -/
theorem grid_pixel_centers_witness :
    (0 < 1 ∧ (0 : ℝ) < 1 ∧ (0 : ℝ) < 1) ∧
    (gridLng ⟨0, 0, 1, 1⟩ 1 0 =
        0 + (((0 : Nat) : ℝ) + 1 / 2) * ((1 - 0) / ((1 : Nat) : ℝ)) ∧
      gridLat ⟨0, 0, 1, 1⟩ 1 0 =
        0 + (((0 : Nat) : ℝ) + 1 / 2) * ((1 - 0) / ((1 : Nat) : ℝ)) ∧
      gridLng ⟨0, 0, 1, 1⟩ 1 0 < gridLng ⟨0, 0, 1, 1⟩ 1 (0 + 1) ∧
      gridLat ⟨0, 0, 1, 1⟩ 1 0 < gridLat ⟨0, 0, 1, 1⟩ 1 (0 + 1)) :=
  ⟨⟨by norm_num, by norm_num, by norm_num⟩,
   grid_pixel_centers ⟨0, 0, 1, 1⟩ 1 1 0 0 (by norm_num) (by norm_num)
     (by norm_num) (by norm_num)⟩

/-- C2 fails on the code: for the bounding box (−0.5, −0.5, 0.5, 0.5) with a
1×1 grid and acquisition time 2020-06-01 00:00:00.0Z (local midnight at the
pixel, hour angle −180°), the returned elevation exceeds 90°, outside the
claimed range [−90, 90] — the `90 − rad2deg(arcsin ...)` formula has range
[0, 180]. -/
theorem sun_elevation_exceeds_ninety :
    ∃ f, sun_elevation ⟨-0.5, -0.5, 0.5, 0.5⟩ [1, 1] "2020-06-01" "00:00:00.0Z" =
        Except.ok (1, 1, f) ∧ 90 < f 0 0 := by
  have hlng : gridLng ⟨-0.5, -0.5, 0.5, 0.5⟩ 1 0 = 0 := by
    simp only [gridLng]
    norm_num
  have hlat : gridLat ⟨-0.5, -0.5, 0.5, 0.5⟩ 1 0 = 0 := by
    simp only [gridLat]
    norm_num
  have hdh : time_to_dec_hour ⟨2020, 6, 1, 0, 0, 0⟩ = 0 := by
    simp only [time_to_dec_hour]
    norm_num
  refine ⟨fun i j => _calculate_sun_elevation (gridLng ⟨-0.5, -0.5, 0.5, 0.5⟩ 1 j)
      (gridLat ⟨-0.5, -0.5, 0.5, 0.5⟩ 1 i)
      (calculate_declination ((tm_yday ⟨2020, 6, 1, 0, 0, 0⟩ : Nat) : ℝ) 1 1
        (fun i2 _ => gridLat ⟨-0.5, -0.5, 0.5, 0.5⟩ 1 i2))
      (time_to_dec_hour ⟨2020, 6, 1, 0, 0, 0⟩), rfl, ?_⟩
  simp only []
  rw [hlng, hlat, hdh]
  exact elevation_midnight_gt _ (abs_calculate_declination_le _ _ _ _)

/-- C7: a leading depth dimension in the shape is ignored — the 3-tuple and
2-tuple calls agree exactly — and whenever the timestamp parses the output
array dimensions are exactly (rows, cols). -/
theorem sun_elevation_depth_ignored (b : BoundingBox) (dep rows cols : Nat)
    (date_collected time_collected_utc : String) :
    sun_elevation b [dep, rows, cols] date_collected time_collected_utc =
      sun_elevation b [rows, cols] date_collected time_collected_utc ∧
    Except.map (fun p => (p.1, p.2.1))
        (sun_elevation b [rows, cols] date_collected time_collected_utc) =
      Except.map (fun _ => (rows, cols))
        (parse_utc_string date_collected time_collected_utc) := by
  unfold sun_elevation
  cases parse_utc_string date_collected time_collected_utc <;>
    simp [rowsCols, Except.map]

end RioToa
